import Mathlib

/-!
Verification of the isHumanCadence keystroke-cadence scoring library.

The embedding follows the TypeScript sources:
* `src/buffer.ts` — fixed-capacity ring buffer (`createBuffer`);
* `src/observer.ts` — event-filtering state machine producing dwell/flight
  samples and counters;
* `src/utils.ts` — math helpers (mean, population stddev, clamp, normal CDF,
  Shannon entropy, lag-1 autocorrelation, sigmoid);
* `src/anti-spoof.ts` — KS-test based log-normality/uniformity scores and
  composite spoof detection;
* `src/analyzer.ts` — six gated metric scores combined by dynamic weight
  redistribution.

Timestamps handled by the observer are embedded as rationals (every
float timestamp is a rational), so the observer semantics is fully
executable.  The statistical pipeline is embedded over the reals.
-/

namespace IsHumanCadence

/-! ### Ring buffer (`src/buffer.ts`, `createBuffer`) -/

/-- Fixed-capacity circular buffer: backing store (zero-initialised like a
`Float64Array`), write cursor and current count. -/
structure RingBuffer (α : Type) where
  capacity : ℕ
  data : ℕ → α
  head : ℕ
  count : ℕ

/-- `createBuffer(capacity)`: empty buffer with zeroed backing store. -/
def createBuffer (α : Type) [Zero α] (capacity : ℕ) : RingBuffer α :=
  ⟨capacity, fun _ => 0, 0, 0⟩

/-- `push(value)`: write at the cursor, advance it modulo the capacity,
bump the count while below capacity. -/
def RingBuffer.push (s : RingBuffer α) (value : α) : RingBuffer α :=
  { s with
    data := fun i => if i = s.head then value else s.data i
    head := (s.head + 1) % s.capacity
    count := if s.count < s.capacity then s.count + 1 else s.count }

/-- `toArray()`: snapshot oldest-first. -/
def RingBuffer.toArray (s : RingBuffer α) [Zero α] : List α :=
  let start := if s.count < s.capacity then 0 else s.head
  (List.range s.count).map fun i => s.data ((start + i) % s.capacity)

/-- `clear()`: reset cursor and count without touching the store. -/
def RingBuffer.clear (s : RingBuffer α) : RingBuffer α :=
  { s with head := 0, count := 0 }

/-- `length` getter. -/
def RingBuffer.length (s : RingBuffer α) : ℕ := s.count

/-- Push a whole list of values in order. -/
def RingBuffer.pushAll (s : RingBuffer α) (xs : List α) : RingBuffer α :=
  xs.foldl RingBuffer.push s

/-! ### Event observer (`src/observer.ts`, `createObserver`) -/

/-- Events delivered to the observer.  A keydown carries the handler-time
clock value, the `isTrusted` flag, whether the key is Backspace/Delete,
the auto-repeat flag and whether a meta/ctrl/alt modifier is held.
The keyup handler reads only the clock. -/
inductive ObsEvent
  | keydown (now : ℚ) (isTrusted : Bool) (isCorrectionKey : Bool)
      (isRepeat : Bool) (hasModifier : Bool)
  | keyup (now : ℚ)
  | paste
  | inputEvent (now : ℚ)

/-- The observer's mutable session state (closure variables of
`createObserver`). -/
structure ObsState where
  dwells : RingBuffer ℚ
  flights : RingBuffer ℚ
  corrections : ℕ
  rollovers : ℕ
  total : ℕ
  pasteDetected : Bool
  syntheticEvents : ℕ
  inputWithoutKeystrokes : Bool
  inputWithoutKeystrokeCount : ℕ
  lastKeydownTime : ℚ
  lastPressTime : ℚ
  lastReleaseTime : ℚ
  activeKeys : ℕ
  pendingFilteredUps : ℕ
  hadRepeat : Bool

/-- Fresh observer state for a given window size. -/
def initObsState (windowSize : ℕ) : ObsState :=
  { dwells := createBuffer ℚ windowSize
    flights := createBuffer ℚ windowSize
    corrections := 0
    rollovers := 0
    total := 0
    pasteDetected := false
    syntheticEvents := 0
    inputWithoutKeystrokes := false
    inputWithoutKeystrokeCount := 0
    lastKeydownTime := 0
    lastPressTime := 0
    lastReleaseTime := 0
    activeKeys := 0
    pendingFilteredUps := 0
    hadRepeat := false }

/-- `onKeyDown` handler. -/
def onKeyDown (now : ℚ) (isTrusted isCorrectionKey isRepeat hasModifier : Bool)
    (s : ObsState) : ObsState :=
  let s := { s with lastKeydownTime := now }
  let s := if isTrusted then s
    else { s with syntheticEvents := s.syntheticEvents + 1 }
  let s := if isCorrectionKey then { s with corrections := s.corrections + 1 }
    else s
  if isRepeat then { s with hadRepeat := true }
  else if hasModifier then
    { s with pendingFilteredUps := s.pendingFilteredUps + 1 }
  else
    let active := s.activeKeys + 1
    let s := { s with
      activeKeys := active
      rollovers := if 1 < active then s.rollovers + 1 else s.rollovers
      total := s.total + 1 }
    let s := if 0 < s.lastReleaseTime ∧ active = 1 then
        { s with flights := s.flights.push (now - s.lastReleaseTime) }
      else s
    { s with lastPressTime := now }

/-- `onKeyUp` handler. -/
def onKeyUp (now : ℚ) (s : ObsState) : ObsState :=
  if 0 < s.pendingFilteredUps then
    { s with pendingFilteredUps := s.pendingFilteredUps - 1 }
  else
    let s := if 0 < s.lastPressTime ∧ s.hadRepeat = false then
        { s with dwells := s.dwells.push (now - s.lastPressTime) }
      else s
    let s := { s with hadRepeat := false }
    { s with activeKeys := s.activeKeys - 1, lastReleaseTime := now }

/-- `onPaste` handler. -/
def onPaste (s : ObsState) : ObsState :=
  { s with pasteDetected := true }

/-- `onInput` handler (50 ms grace window). -/
def onInput (now : ℚ) (s : ObsState) : ObsState :=
  if 50 < now - s.lastKeydownTime then
    { s with
      inputWithoutKeystrokes := true
      inputWithoutKeystrokeCount := s.inputWithoutKeystrokeCount + 1
      lastReleaseTime := 0 }
  else s

/-- Dispatch one event to the matching handler. -/
def obsStep (s : ObsState) (e : ObsEvent) : ObsState :=
  match e with
  | .keydown now tr corr rep md => onKeyDown now tr corr rep md s
  | .keyup now => onKeyUp now s
  | .paste => onPaste s
  | .inputEvent now => onInput now s

/-- Run a list of events against a fresh started observer. -/
def runObserver (windowSize : ℕ) (events : List ObsEvent) : ObsState :=
  events.foldl obsStep (initObsState windowSize)

/-! ### Math utilities (`src/utils.ts`) -/

open Classical

/-- Abramowitz & Stegun input scaling factor. -/
def AS_SCALING : ℝ := 0.2316419

/-- 1 / √(2π) prefactor used by the normal CDF approximation. -/
def INV_SQRT_2PI : ℝ := 0.3989422804014327

/-- A&S polynomial coefficient a₁. -/
def AS_A1 : ℝ := 0.31938153

/-- A&S polynomial coefficient a₂. -/
def AS_A2 : ℝ := -0.356563782

/-- A&S polynomial coefficient a₃. -/
def AS_A3 : ℝ := 1.781477937

/-- A&S polynomial coefficient a₄. -/
def AS_A4 : ℝ := -1.821255978

/-- A&S polynomial coefficient a₅. -/
def AS_A5 : ℝ := 1.330274429

/-- `mean(values)`: arithmetic mean, 0 for empty input. -/
noncomputable def mean (values : List ℝ) : ℝ :=
  if values.length = 0 then 0 else values.sum / values.length

/-- `stddev(values)`: population standard deviation, 0 for fewer than 2
values. -/
noncomputable def stddev (values : List ℝ) : ℝ :=
  if values.length < 2 then 0
  else
    let m := mean values
    Real.sqrt ((values.map fun v => (v - m) * (v - m)).sum / values.length)

/-- `clamp(value, min, max)`. -/
noncomputable def clamp (value mn mx : ℝ) : ℝ :=
  if value < mn then mn else if mx < value then mx else value

/-- `normalCDF(x)`: Abramowitz & Stegun rational approximation of the
cumulative normal distribution. -/
noncomputable def normalCDF (x : ℝ) : ℝ :=
  let t := 1 / (1 + AS_SCALING * |x|)
  let p := INV_SQRT_2PI * Real.exp (-x * x / 2) *
    (t * (AS_A1 + t * (AS_A2 + t * (AS_A3 + t * (AS_A4 + t * AS_A5)))))
  if 0 ≤ x then 1 - p else p

/-- Minimum of a list computed as in the source loops: start at the first
element, fold over the rest. -/
noncomputable def listMin (values : List ℝ) : ℝ :=
  values.tail.foldl (fun m v => if v < m then v else m) (values.headD 0)

/-- Maximum of a list computed as in the source loops. -/
noncomputable def listMax (values : List ℝ) : ℝ :=
  values.tail.foldl (fun m v => if m < v then v else m) (values.headD 0)

/-- `shannonEntropy(values, bins)`: histogram-based Shannon entropy in
bits over `bins` equal-width buckets. -/
noncomputable def shannonEntropy (values : List ℝ) (bins : ℕ) : ℝ :=
  if values.length < 2 then 0
  else
    let mn := listMin values
    let mx := listMax values
    let range := mx - mn
    if range = 0 then 0
    else
      let idx : ℝ → ℕ := fun v => min (⌊(v - mn) / range * bins⌋.toNat) (bins - 1)
      let n := values.length
      ((List.range bins).map fun i =>
        let c := (values.filter fun v => idx v = i).length
        if c = 0 then 0 else -((c / n : ℝ) * Real.logb 2 (c / n))).sum

/-- `autocorrelation(values)`: lag-1 serial correlation, 0 for fewer than
3 values or zero variance. -/
noncomputable def autocorrelation (values : List ℝ) : ℝ :=
  if values.length < 3 then 0
  else
    let m := mean values
    let den := (values.map fun v => (v - m) * (v - m)).sum
    let num := ((values.zip values.tail).map fun p => (p.2 - m) * (p.1 - m)).sum
    if den = 0 then 0 else num / den

/-- `sigmoid(x, k, midpoint)`: logistic normalisation to (0, 1). -/
noncomputable def sigmoid (x k midpoint : ℝ) : ℝ :=
  1 / (1 + Real.exp (-k * (x - midpoint)))

/-! ### Anti-spoof engine (`src/anti-spoof.ts`) -/

/-- Minimum samples for the KS tests. -/
def MIN_KS_SAMPLES : ℕ := 5

/-- KS critical-value coefficient (α = 0.10). -/
def KS_CRITICAL_COEFF : ℝ := 1.22

/-- Score baseline when D ≤ critical. -/
def KS_PASS_BASELINE : ℝ := 0.7

/-- Additional score range above the pass baseline. -/
def KS_PASS_BONUS : ℝ := 0.3

/-- Numerator when D > critical. -/
def KS_FAIL_BASELINE : ℝ := 0.7

/-- Autocorrelation noise floor: below this, treated as zero. -/
def AUTOCORR_NOISE_FLOOR : ℝ := 0.05

/-- Autocorrelation normalisation cap. -/
def AUTOCORR_HUMAN_MAX : ℝ := 0.3

/-- detectSpoof weight on log-normality. -/
def SPOOF_WEIGHT_LOGNORMALITY : ℝ := 0.45

/-- detectSpoof weight on (anti-)uniformity. -/
def SPOOF_WEIGHT_UNIFORMITY : ℝ := 0.30

/-- detectSpoof weight on serial correlation. -/
def SPOOF_WEIGHT_AUTOCORR : ℝ := 0.25

/-- `ksStatistic(samples, cdf)`: one-sample Kolmogorov–Smirnov statistic —
maximum deviation between the empirical CDF of the sorted samples and the
theoretical CDF. -/
noncomputable def ksStatistic (samples : List ℝ) (cdf : ℝ → ℝ) : ℝ :=
  let sorted := samples.mergeSort fun a b => decide (a ≤ b)
  let n := samples.length
  (List.range n).foldl (fun (maxD : ℝ) (i : ℕ) =>
    let empirical := ((i : ℝ) + 1) / n
    let theoretical := cdf (sorted.getD i 0)
    let d1 := |empirical - theoretical|
    let d2 := |(i : ℝ) / n - theoretical|
    let d := max d1 d2
    if maxD < d then d else maxD) 0

/-- `computeLogNormalityScore(flights)`: KS fit of the log-transformed
positive samples against a normal distribution with the transformed
sample's own mean and stddev. -/
noncomputable def computeLogNormalityScore (flights : List ℝ) : ℝ :=
  if flights.length < MIN_KS_SAMPLES then 0.5
  else
    let logged := (flights.filter fun x => 0 < x).map Real.log
    if logged.length < MIN_KS_SAMPLES then 0.5
    else
      let mu := mean logged
      let sigma := stddev logged
      if sigma = 0 then 0
      else
        let D := ksStatistic logged fun x => normalCDF ((x - mu) / sigma)
        let critical := KS_CRITICAL_COEFF / Real.sqrt (logged.length : ℝ)
        if D ≤ critical then KS_PASS_BASELINE + KS_PASS_BONUS * (1 - D / critical)
        else max 0 (KS_FAIL_BASELINE * (critical / D))

/-- `computeUniformityScore(flights)`: KS fit against Uniform(min, max)
of the sample's own range. -/
noncomputable def computeUniformityScore (flights : List ℝ) : ℝ :=
  if flights.length < MIN_KS_SAMPLES then 0.5
  else
    let sorted := flights.mergeSort fun a b => decide (a ≤ b)
    let mn := sorted.getD 0 0
    let mx := sorted.getD (sorted.length - 1) 0
    let range := mx - mn
    if range = 0 then 0
    else
      let D := ksStatistic sorted fun x => (x - mn) / range
      let critical := KS_CRITICAL_COEFF / Real.sqrt (flights.length : ℝ)
      if D ≤ critical then KS_PASS_BASELINE + KS_PASS_BONUS * (1 - D / critical)
      else max 0 (KS_FAIL_BASELINE * (critical / D))

/-- Output of `detectSpoof`: composite genuineness score plus the three
sub-scores, exposed for observability. -/
structure SpoofResult where
  genuineScore : ℝ
  logNormality : ℝ
  uniformity : ℝ
  serialCorrelation : ℝ

/-- `detectSpoof(flights)`: weighted combination of log-normality,
anti-uniformity and noise-floored serial correlation. -/
noncomputable def detectSpoof (flights : List ℝ) : SpoofResult :=
  let logNormality := computeLogNormalityScore flights
  let uniformity := computeUniformityScore flights
  let serialCorrelation := if 3 ≤ flights.length then autocorrelation flights else 0
  let absCorr := |serialCorrelation|
  let corrScore :=
    if AUTOCORR_NOISE_FLOOR < absCorr then min 1 (absCorr / AUTOCORR_HUMAN_MAX) else 0
  let genuineScore := max 0 (min 1 (
    SPOOF_WEIGHT_LOGNORMALITY * logNormality +
    SPOOF_WEIGHT_UNIFORMITY * (1 - uniformity) +
    SPOOF_WEIGHT_AUTOCORR * corrScore))
  ⟨genuineScore, logNormality, uniformity, serialCorrelation⟩

/-! ### Analyzer (`src/analyzer.ts`) -/

/-- Sentinel: metric has no behavioral data to score. -/
def NO_DATA : ℝ := -1

/-- Minimum dwell samples for variance scoring. -/
def MIN_DWELL_SAMPLES : ℕ := 5

/-- Minimum flight samples for distribution fitting. -/
def MIN_FLIGHT_SAMPLES : ℕ := 5

/-- Minimum flight samples for entropy scoring. -/
def MIN_ENTROPY_SAMPLES : ℕ := 5

/-- Minimum total keystrokes for correction ratio scoring. -/
def MIN_CORRECTION_SAMPLES : ℕ := 5

/-- Minimum flight samples for burst regularity scoring. -/
def MIN_BURST_SAMPLES : ℕ := 10

/-- Minimum total keystrokes for rollover rate scoring. -/
def MIN_ROLLOVER_SAMPLES : ℕ := 10

/-- Dwell variance ramp-up slope. -/
def DWELL_UP_SLOPE : ℝ := 0.3

/-- Dwell variance ramp-up midpoint (ms). -/
def DWELL_UP_MIDPOINT_MS : ℝ := 8

/-- Dwell variance ramp-down slope. -/
def DWELL_DOWN_SLOPE : ℝ := -0.05

/-- Dwell variance ramp-down midpoint (ms). -/
def DWELL_DOWN_MIDPOINT_MS : ℝ := 80

/-- Physical minimum human inter-key interval (ms). -/
def IKI_FLOOR_MS : ℝ := 60

/-- Fraction of sub-floor flights above which the penalty applies. -/
def SUB_FLOOR_RATIO_THRESHOLD : ℝ := 0.5

/-- Score multiplier when the majority of flights are sub-floor. -/
def IKI_FLOOR_PENALTY : ℝ := 0.15

/-- Fluctuation sigmoid slope. -/
def FLUCTUATION_SIGMOID_SLOPE : ℝ := 1.0

/-- Fluctuation sigmoid midpoint (target max/min IKI ratio). -/
def FLUCTUATION_SIGMOID_MIDPOINT : ℝ := 4

/-- Entropy ramp-up slope. -/
def ENTROPY_UP_SLOPE : ℝ := 3

/-- Entropy ramp-up midpoint (bits). -/
def ENTROPY_UP_MIDPOINT_BITS : ℝ := 1.5

/-- Entropy ramp-down slope. -/
def ENTROPY_DOWN_SLOPE : ℝ := -3

/-- Entropy ramp-down midpoint (bits). -/
def ENTROPY_DOWN_MIDPOINT_BITS : ℝ := 3.5

/-- Weight of the entropy bell in the timing-entropy score. -/
def ENTROPY_WEIGHT : ℝ := 0.7

/-- Weight of the fluctuation sigmoid in the timing-entropy score. -/
def FLUCTUATION_WEIGHT : ℝ := 0.3

/-- Correction sigmoid slope. -/
def CORRECTION_SIGMOID_SLOPE : ℝ := 80

/-- Correction sigmoid midpoint. -/
def CORRECTION_SIGMOID_MIDPOINT : ℝ := 0.015

/-- Excessive-correction threshold. -/
def EXCESSIVE_CORRECTION_THRESHOLD : ℝ := 0.3

/-- Excessive-correction penalty multiplier. -/
def EXCESSIVE_CORRECTION_PENALTY : ℝ := 0.8

/-- Gap above which a flight separates typing bursts (ms). -/
def BURST_GAP_MS : ℝ := 300

/-- Burst coefficient-of-variation sigmoid slope. -/
def BURST_CV_SLOPE : ℝ := 8

/-- Burst coefficient-of-variation sigmoid midpoint. -/
def BURST_CV_MIDPOINT : ℝ := 0.2

/-- Rollover sigmoid slope. -/
def ROLLOVER_SIGMOID_SLOPE : ℝ := 60

/-- Rollover sigmoid midpoint. -/
def ROLLOVER_SIGMOID_MIDPOINT : ℝ := 0.03

/-- The six metric channels. -/
inductive MetricKey
  | dwellVariance
  | flightFit
  | timingEntropy
  | correctionRatio
  | burstRegularity
  | rolloverRate
deriving DecidableEq

/-- Per-metric weights (the `MetricWeights` record). -/
structure MetricWeights where
  dwellVariance : ℝ
  flightFit : ℝ
  timingEntropy : ℝ
  correctionRatio : ℝ
  burstRegularity : ℝ
  rolloverRate : ℝ

/-- Look a weight up by key (record access `weights[k]`). -/
def MetricWeights.get (w : MetricWeights) : MetricKey → ℝ
  | .dwellVariance => w.dwellVariance
  | .flightFit => w.flightFit
  | .timingEntropy => w.timingEntropy
  | .correctionRatio => w.correctionRatio
  | .burstRegularity => w.burstRegularity
  | .rolloverRate => w.rolloverRate

/-- Replace the weight of one metric, leaving the others unchanged. -/
def MetricWeights.set (w : MetricWeights) : MetricKey → ℝ → MetricWeights
  | .dwellVariance, v => { w with dwellVariance := v }
  | .flightFit, v => { w with flightFit := v }
  | .timingEntropy, v => { w with timingEntropy := v }
  | .correctionRatio, v => { w with correctionRatio := v }
  | .burstRegularity, v => { w with burstRegularity := v }
  | .rolloverRate, v => { w with rolloverRate := v }

/-- Default metric weights (analyzer source). -/
def DEFAULT_WEIGHTS : MetricWeights :=
  { dwellVariance := 0.15
    flightFit := 0.15
    timingEntropy := 0.20
    correctionRatio := 0.10
    burstRegularity := 0.15
    rolloverRate := 0.25 }

/-- Per-metric reported scores (the `MetricScores` record). -/
structure MetricScores where
  dwellVariance : ℝ
  flightFit : ℝ
  timingEntropy : ℝ
  correctionRatio : ℝ
  burstRegularity : ℝ
  rolloverRate : ℝ

/-- Look a reported score up by key. -/
def MetricScores.get (s : MetricScores) : MetricKey → ℝ
  | .dwellVariance => s.dwellVariance
  | .flightFit => s.flightFit
  | .timingEntropy => s.timingEntropy
  | .correctionRatio => s.correctionRatio
  | .burstRegularity => s.burstRegularity
  | .rolloverRate => s.rolloverRate

/-- The `keys` iteration order of the composite fold. -/
def metricKeys : List MetricKey :=
  [.dwellVariance, .flightFit, .timingEntropy,
   .correctionRatio, .burstRegularity, .rolloverRate]

/-- `scoreDwellVariance(dwells)`: bell of two sigmoids over the population
stddev of dwell times; 0.5 below the sample gate. -/
noncomputable def scoreDwellVariance (dwells : List ℝ) : ℝ :=
  if dwells.length < MIN_DWELL_SAMPLES then 0.5
  else
    let sd := stddev dwells
    let up := sigmoid sd DWELL_UP_SLOPE DWELL_UP_MIDPOINT_MS
    let down := sigmoid sd DWELL_DOWN_SLOPE DWELL_DOWN_MIDPOINT_MS
    up * down

/-- `scoreFlightFit(flights)`: anti-spoof genuineness score with a
physical-impossibility penalty when a majority of flights sit below the
minimum humanly-sustainable inter-key interval. -/
noncomputable def scoreFlightFit (flights : List ℝ) : ℝ :=
  if flights.length < MIN_FLIGHT_SAMPLES then 0.5
  else
    let result := detectSpoof flights
    let subFloor := (flights.filter fun x => x < IKI_FLOOR_MS).length
    let ikiPenalty :=
      if SUB_FLOOR_RATIO_THRESHOLD < (subFloor : ℝ) / flights.length
      then IKI_FLOOR_PENALTY else 1.0
    result.genuineScore * ikiPenalty

/-- `scoreTimingEntropy(flights)`: weighted sum of a bell-shaped entropy
transform and a sigmoid of the max/min flight ratio. -/
noncomputable def scoreTimingEntropy (flights : List ℝ) : ℝ :=
  if flights.length < MIN_ENTROPY_SAMPLES then 0.5
  else
    let entropy := shannonEntropy flights 10
    let mn := listMin flights
    let mx := listMax flights
    let fluctuation := if 0 < mn then mx / mn else 0
    let fluctScore := sigmoid fluctuation FLUCTUATION_SIGMOID_SLOPE FLUCTUATION_SIGMOID_MIDPOINT
    let up := sigmoid entropy ENTROPY_UP_SLOPE ENTROPY_UP_MIDPOINT_BITS
    let down := sigmoid entropy ENTROPY_DOWN_SLOPE ENTROPY_DOWN_MIDPOINT_BITS
    let entropyScore := up * down
    ENTROPY_WEIGHT * entropyScore + FLUCTUATION_WEIGHT * fluctScore

/-- `scoreCorrectionRatio(corrections, total)`: floor-rescaled sigmoid of
the correction ratio; zero corrections yield the no-data sentinel. -/
noncomputable def scoreCorrectionRatio (corrections total : ℕ) : ℝ :=
  if total < MIN_CORRECTION_SAMPLES then 0.5
  else if corrections = 0 then NO_DATA
  else
    let ratio : ℝ := (corrections : ℝ) / total
    let raw := sigmoid ratio CORRECTION_SIGMOID_SLOPE CORRECTION_SIGMOID_MIDPOINT
    let floor := sigmoid 0 CORRECTION_SIGMOID_SLOPE CORRECTION_SIGMOID_MIDPOINT
    let score := (raw - floor) / (1 - floor)
    if EXCESSIVE_CORRECTION_THRESHOLD < ratio then score * EXCESSIVE_CORRECTION_PENALTY
    else score

/-- `scoreBurstRegularity(flights)`: sigmoid of the coefficient of
variation of burst-gap durations; fewer than 2 gaps yield the no-data
sentinel. -/
noncomputable def scoreBurstRegularity (flights : List ℝ) : ℝ :=
  if flights.length < MIN_BURST_SAMPLES then 0.5
  else
    let burstGaps := flights.filter fun x => BURST_GAP_MS < x
    if burstGaps.length < 2 then NO_DATA
    else
      let gapStddev := stddev burstGaps
      let gapMean := mean burstGaps
      let cv := if 0 < gapMean then gapStddev / gapMean else 0
      sigmoid cv BURST_CV_SLOPE BURST_CV_MIDPOINT

/-- `scoreRolloverRate(rollovers, total)`: floor-rescaled sigmoid of the
rollover ratio; zero rollovers yield the no-data sentinel. -/
noncomputable def scoreRolloverRate (rollovers total : ℕ) : ℝ :=
  if total < MIN_ROLLOVER_SAMPLES then 0.5
  else if rollovers = 0 then NO_DATA
  else
    let ratio : ℝ := (rollovers : ℝ) / total
    let raw := sigmoid ratio ROLLOVER_SIGMOID_SLOPE ROLLOVER_SIGMOID_MIDPOINT
    let floor := sigmoid 0 ROLLOVER_SIGMOID_SLOPE ROLLOVER_SIGMOID_MIDPOINT
    (raw - floor) / (1 - floor)

/-- The `raw` record of `analyze`: each metric's raw (possibly sentinel)
score, looked up by key. -/
noncomputable def rawScore (dwells flights : List ℝ)
    (corrections rollovers total : ℕ) : MetricKey → ℝ
  | .dwellVariance => scoreDwellVariance dwells
  | .flightFit => scoreFlightFit flights
  | .timingEntropy => scoreTimingEntropy flights
  | .correctionRatio => scoreCorrectionRatio corrections total
  | .burstRegularity => scoreBurstRegularity flights
  | .rolloverRate => scoreRolloverRate rollovers total

/-- Analyzer configuration. -/
structure AnalyzerConfig where
  minSamples : ℕ
  weights : MetricWeights

/-- Analyzer output. -/
structure AnalyzerResult where
  score : ℝ
  metrics : MetricScores
  sampleCount : ℕ
  confident : Bool

/-- `createAnalyzer(config).analyze(...)`: compute the six raw scores,
substitute the sentinel with 0 for reporting, and combine the non-gated
raw scores by dynamic weight redistribution. -/
noncomputable def analyze (cfg : AnalyzerConfig)
    (dwellBuf flightBuf : RingBuffer ℝ)
    (corrections rollovers total : ℕ) : AnalyzerResult :=
  let dwells := dwellBuf.toArray
  let flights := flightBuf.toArray
  let sampleCount := dwells.length
  let confident := decide (cfg.minSamples ≤ sampleCount)
  let raw := rawScore dwells flights corrections rollovers total
  let metrics : MetricScores :=
    { dwellVariance := if raw .dwellVariance = NO_DATA then 0 else raw .dwellVariance
      flightFit := if raw .flightFit = NO_DATA then 0 else raw .flightFit
      timingEntropy := if raw .timingEntropy = NO_DATA then 0 else raw .timingEntropy
      correctionRatio := if raw .correctionRatio = NO_DATA then 0 else raw .correctionRatio
      burstRegularity := if raw .burstRegularity = NO_DATA then 0 else raw .burstRegularity
      rolloverRate := if raw .rolloverRate = NO_DATA then 0 else raw .rolloverRate }
  let sums := metricKeys.foldl (fun (p : ℝ × ℝ) k =>
    if raw k ≠ NO_DATA then (p.1 + cfg.weights.get k * raw k, p.2 + cfg.weights.get k)
    else p) (0, 0)
  let score := if 0 < sums.2 then clamp (sums.1 / sums.2) 0 1 else 0
  { score := score, metrics := metrics, sampleCount := sampleCount, confident := confident }

/-- Written from the spec's words, for comparison with `analyze`:
"for each metric, if its raw value is the no-data sentinel, exclude both
its weight and its contribution from the weighted sum; otherwise
accumulate weight·value into a numerator and weight into a denominator.
Final score = clamp(numerator/denominator, 0, 1), or 0 if the denominator
is 0". -/
noncomputable def compositeSpecScore (raw w : MetricKey → ℝ) : ℝ :=
  let num := (metricKeys.map fun k => if raw k = NO_DATA then 0 else w k * raw k).sum
  let den := (metricKeys.map fun k => if raw k = NO_DATA then 0 else w k).sum
  if den = 0 then 0 else clamp (num / den) 0 1

/-! ### Classification with hysteresis -/

/-- Classification labels. -/
inductive Classification
  | bot
  | unknown
  | human
deriving DecidableEq

/-- Modelled from the spec: the four hysteresis thresholds
(enter-bot, exit-bot, enter-human, exit-human); the classifier module
itself is not under src — only the README, the framework bindings and the
tests reference it.  Field names follow the README's
`classificationThresholds` option. -/
structure ClassificationThresholds where
  unknownToBot : ℝ
  botToUnknown : ℝ
  unknownToHuman : ℝ
  humanToUnknown : ℝ

/-- Modelled from the spec: default thresholds documented in the README
(`DEFAULT_CLASSIFICATION_THRESHOLDS`). -/
def DEFAULT_CLASSIFICATION_THRESHOLDS : ClassificationThresholds :=
  { unknownToBot := 0.35
    botToUnknown := 0.45
    unknownToHuman := 0.70
    humanToUnknown := 0.60 }

/-- Modelled from the spec: the classification transition function.
"From unknown, move to bot if score < enter-bot, or to human if
score ≥ enter-human, else stay.  From bot, move to unknown only if
score ≥ exit-bot.  From human, move to unknown only if
score < exit-human."  The classifier implementation is absent from src. -/
noncomputable def classifyStep (t : ClassificationThresholds)
    (st : Classification) (score : ℝ) : Classification :=
  match st with
  | .unknown =>
      if score < t.unknownToBot then .bot
      else if t.unknownToHuman ≤ score then .human
      else .unknown
  | .bot => if t.botToUnknown ≤ score then .unknown else .bot
  | .human => if score < t.humanToUnknown then .unknown else .human

/-! ## Theorems -/

/-! ### Ring buffer -/

theorem pushAll_invariant {α : Type} [Zero α] (c : ℕ) (xs : List α) :
    ((createBuffer α c).pushAll xs).capacity = c ∧
    ((createBuffer α c).pushAll xs).count = min xs.length c ∧
    ((createBuffer α c).pushAll xs).head = xs.length % c ∧
    ∀ p, p < xs.length → xs.length ≤ p + c →
      ((createBuffer α c).pushAll xs).data (p % c) = xs.getD p 0 := by
  induction xs using List.reverseRecOn with
  | nil =>
      refine ⟨rfl, by simp [createBuffer, RingBuffer.pushAll], by simp [createBuffer, RingBuffer.pushAll], ?_⟩
      intro p hp
      simp at hp
  | append_singleton ys y ih =>
      obtain ⟨hcap, hcount, hhead, hdata⟩ := ih
      have hstep : (createBuffer α c).pushAll (ys ++ [y]) =
          ((createBuffer α c).pushAll ys).push y := by
        simp [RingBuffer.pushAll]
      rw [hstep]
      set s := (createBuffer α c).pushAll ys with hs
      refine ⟨hcap, ?_, ?_, ?_⟩
      · rw [RingBuffer.push]
        simp only [hcount, hcap, List.length_append, List.length_singleton]
        rcases Nat.lt_or_ge ys.length c with h | h
        · rw [if_pos (by omega), Nat.min_eq_left h, Nat.min_eq_left (by omega)]
        · rw [if_neg (by omega), Nat.min_eq_right h, Nat.min_eq_right (by omega)]
      · rw [RingBuffer.push]
        simp only [hhead, hcap, List.length_append, List.length_singleton]
        exact Nat.mod_add_mod ys.length c 1
      · intro p hp hpc
        rw [List.length_append, List.length_singleton] at hp hpc
        rw [RingBuffer.push]
        simp only
        rcases Nat.lt_or_ge p ys.length with hplt | hpge
        · have hne : p % c ≠ s.head := by
            rw [hhead]
            intro heq
            have hmodeq : p ≡ ys.length [MOD c] := heq
            have hdvd : c ∣ ys.length - p := (Nat.modEq_iff_dvd' (Nat.le_of_lt hplt)).mp hmodeq
            have hlt : ys.length - p < c := by omega
            have hpos : 0 < ys.length - p := by omega
            exact absurd (Nat.le_of_dvd hpos hdvd) (by omega)
          rw [if_neg hne, hdata p hplt (by omega), List.getD_append _ _ _ _ hplt]
        · have hpeq : p = ys.length := by omega
          subst hpeq
          rw [hhead, if_pos rfl]
          rw [List.getD_append_right _ _ _ _ (le_refl _), Nat.sub_self]
          rfl

/-- C3: for every capacity C ≥ 1 and every sequence of N > C pushed
values, `toArray()` afterwards returns exactly the last C pushed values in
push order, and at every intermediate point the length never exceeds C. -/
theorem ringBuffer_sliding_window {α : Type} [Zero α] (c : ℕ) (xs : List α)
    (hc : 1 ≤ c) (hn : c < xs.length) :
    ((createBuffer α c).pushAll xs).toArray = xs.drop (xs.length - c) ∧
    ∀ n : ℕ, ((createBuffer α c).pushAll (xs.take n)).length ≤ c := by
  constructor
  · obtain ⟨hcap, hcount, hhead, hdata⟩ := pushAll_invariant c xs
    set s := (createBuffer α c).pushAll xs with hs
    have hcnt : s.count = c := by rw [hcount]; omega
    rw [RingBuffer.toArray]
    simp only [hcnt, hcap]
    rw [if_neg (lt_irrefl c)]
    apply List.ext_getElem
    · simp only [List.length_map, List.length_range, List.length_drop]
      omega
    · intro i h1 h2
      simp only [List.getElem_map, List.getElem_range, List.getElem_drop]
      have hi : i < c := by simpa using h1
      have hmod : (s.head + i) % c = (xs.length - c + i) % c := by
        rw [hhead, Nat.mod_add_mod]
        conv_rhs => rw [← Nat.add_mod_right (xs.length - c + i) c]
        congr 1
        omega
      rw [hmod, hdata (xs.length - c + i) (by omega) (by omega),
        List.getD_eq_getElem xs 0 (by omega)]
  · intro n
    obtain ⟨_, hcount, _, _⟩ := pushAll_invariant c (xs.take n)
    rw [RingBuffer.length, hcount]
    omega

/-- C3 witness: capacity 2, pushes [1, 2, 3]. -/
theorem ringBuffer_sliding_window_witness :
    ((createBuffer ℚ 2).pushAll [1, 2, 3]).toArray = [2, 3] ∧
    ∀ n : ℕ, ((createBuffer ℚ 2).pushAll (([1, 2, 3] : List ℚ).take n)).length ≤ 2 := by
  have h := ringBuffer_sliding_window (α := ℚ) 2 [1, 2, 3] (by decide) (by decide)
  exact ⟨h.1, h.2⟩

/-! ### Observer -/

theorem onKeyUp_corrections (now : ℚ) (s : ObsState) :
    (onKeyUp now s).corrections = s.corrections := by
  simp only [onKeyUp]
  split_ifs <;> rfl

theorem onKeyUp_total (now : ℚ) (s : ObsState) :
    (onKeyUp now s).total = s.total := by
  simp only [onKeyUp]
  split_ifs <;> rfl

theorem onKeyDown_repeat_correction (now : ℚ) (tr md : Bool) (s : ObsState) :
    (onKeyDown now tr true true md s).corrections = s.corrections + 1 ∧
    (onKeyDown now tr true true md s).total = s.total := by
  simp only [onKeyDown]
  split_ifs <;> first | rfl | simp_all

theorem foldl_repeat_backspace (now : ℚ) (tr md : Bool) (k : ℕ) (s : ObsState) :
    (List.foldl obsStep s
        (List.replicate k (ObsEvent.keydown now tr true true md))).corrections
      = s.corrections + k ∧
    (List.foldl obsStep s
        (List.replicate k (ObsEvent.keydown now tr true true md))).total = s.total := by
  induction k generalizing s with
  | zero => simp
  | succ n ih =>
      rw [List.replicate_succ, List.foldl_cons]
      obtain ⟨h1, h2⟩ := ih (obsStep s (ObsEvent.keydown now tr true true md))
      obtain ⟨g1, g2⟩ := onKeyDown_repeat_correction now tr md s
      constructor
      · rw [h1]; rw [obsStep]; rw [g1]; omega
      · rw [h2]; rw [obsStep]; rw [g2]

/-- C8: Ctrl+Backspace keydown then Backspace keyup gives corrections = 1,
empty dwell buffer and total = 0 — plus, in general, a correction keydown
increments the correction counter regardless of repeat and modifier flags,
while the keyup handler never touches corrections or total. -/
theorem ctrl_backspace_correction :
    (∀ (now : ℚ) (tr rep md : Bool) (s : ObsState),
        (onKeyDown now tr true rep md s).corrections = s.corrections + 1) ∧
    (runObserver 50 [ObsEvent.keydown 1000 true true false true,
        ObsEvent.keyup 1020]).corrections = 1 ∧
    (runObserver 50 [ObsEvent.keydown 1000 true true false true,
        ObsEvent.keyup 1020]).dwells.toArray = [] ∧
    (runObserver 50 [ObsEvent.keydown 1000 true true false true,
        ObsEvent.keyup 1020]).total = 0 := by
  refine ⟨?_, rfl, rfl, rfl⟩
  intro now tr rep md s
  simp only [onKeyDown]
  split_ifs <;> rfl

/-- C2: the claimed scenario keydown@1000, repeat keydowns @1050 and @1100,
keyup@1120 leaves total = 1 as claimed, but the dwell buffer is empty, not
[120]: the `hadRepeat` flag set by the auto-repeat keydowns suppresses the
dwell push at the keyup, contradicting the repository's own observer test
which expects dwells = [120]. -/
theorem repeat_filtering_total_and_empty_dwells :
    (runObserver 50 [ObsEvent.keydown 1000 true false false false,
        ObsEvent.keydown 1050 true false true false,
        ObsEvent.keydown 1100 true false true false,
        ObsEvent.keyup 1120]).total = 1 ∧
    (runObserver 50 [ObsEvent.keydown 1000 true false false false,
        ObsEvent.keydown 1050 true false true false,
        ObsEvent.keydown 1100 true false true false,
        ObsEvent.keyup 1120]).dwells.toArray = [] ∧
    (runObserver 50 [ObsEvent.keydown 1000 true false false false,
        ObsEvent.keydown 1050 true false true false,
        ObsEvent.keydown 1100 true false true false,
        ObsEvent.keyup 1120]).dwells.toArray ≠ [120] := by
  exact ⟨rfl, rfl, by decide⟩

/-- C10: the correction check precedes the auto-repeat filter, so every
auto-repeat keydown of a correction key increments corrections while total
is unchanged; a held Backspace press followed by k auto-repeats and one
keyup yields corrections = k + 1 and total = 1, so with at least one
repeat corrections strictly exceeds total. -/
theorem repeat_backspace_corrections_exceed_total :
    (∀ (now : ℚ) (tr md : Bool) (s : ObsState),
        (onKeyDown now tr true true md s).corrections = s.corrections + 1 ∧
        (onKeyDown now tr true true md s).total = s.total) ∧
    (∀ k : ℕ,
      (runObserver 50 (ObsEvent.keydown 1000 true true false false ::
        (List.replicate k (ObsEvent.keydown 1050 true true true false) ++
          [ObsEvent.keyup 1100]))).corrections = k + 1 ∧
      (runObserver 50 (ObsEvent.keydown 1000 true true false false ::
        (List.replicate k (ObsEvent.keydown 1050 true true true false) ++
          [ObsEvent.keyup 1100]))).total = 1) ∧
    ∀ k : ℕ,
      (runObserver 50 (ObsEvent.keydown 1000 true true false false ::
        (List.replicate (k + 1) (ObsEvent.keydown 1050 true true true false) ++
          [ObsEvent.keyup 1100]))).total <
      (runObserver 50 (ObsEvent.keydown 1000 true true false false ::
        (List.replicate (k + 1) (ObsEvent.keydown 1050 true true true false) ++
          [ObsEvent.keyup 1100]))).corrections := by
  have key : ∀ k : ℕ,
      (runObserver 50 (ObsEvent.keydown 1000 true true false false ::
        (List.replicate k (ObsEvent.keydown 1050 true true true false) ++
          [ObsEvent.keyup 1100]))).corrections = k + 1 ∧
      (runObserver 50 (ObsEvent.keydown 1000 true true false false ::
        (List.replicate k (ObsEvent.keydown 1050 true true true false) ++
          [ObsEvent.keyup 1100]))).total = 1 := by
    intro k
    rw [runObserver, List.foldl_cons, List.foldl_append, List.foldl_cons, List.foldl_nil]
    set s1 := obsStep (initObsState 50) (ObsEvent.keydown 1000 true true false false) with hs1
    obtain ⟨h1, h2⟩ := foldl_repeat_backspace 1050 true false k s1
    have hc1 : s1.corrections = 1 := by rw [hs1]; rfl
    have ht1 : s1.total = 1 := by rw [hs1]; rfl
    constructor
    · rw [obsStep, onKeyUp_corrections, h1, hc1]; omega
    · rw [obsStep, onKeyUp_total, h2, ht1]
  refine ⟨onKeyDown_repeat_correction, key, ?_⟩
  intro k
  obtain ⟨h1, h2⟩ := key (k + 1)
  omega

/-! ### Analytic helper lemmas -/

theorem sigmoid_pos (x k m : ℝ) : 0 < sigmoid x k m := by
  rw [sigmoid]
  positivity

theorem sigmoid_lt_one (x k m : ℝ) : sigmoid x k m < 1 := by
  rw [sigmoid, div_lt_one (by positivity)]
  linarith [Real.exp_pos (-k * (x - m))]

theorem sigmoid_nonneg (x k m : ℝ) : 0 ≤ sigmoid x k m :=
  le_of_lt (sigmoid_pos x k m)

theorem sigmoid_le_one (x k m : ℝ) : sigmoid x k m ≤ 1 :=
  le_of_lt (sigmoid_lt_one x k m)

theorem sigmoid_mono (k m a b : ℝ) (hk : 0 < k) (hab : a ≤ b) :
    sigmoid a k m ≤ sigmoid b k m := by
  rw [sigmoid, sigmoid]
  have hb : (0 : ℝ) < 1 + Real.exp (-k * (b - m)) := by positivity
  apply one_div_le_one_div_of_le hb
  have : -k * (b - m) ≤ -k * (a - m) := by nlinarith
  linarith [Real.exp_le_exp.mpr this]

theorem clamp_mem (x : ℝ) : 0 ≤ clamp x 0 1 ∧ clamp x 0 1 ≤ 1 := by
  rw [clamp]
  split_ifs with h1 h2
  · norm_num
  · norm_num
  · constructor <;> linarith

theorem max_min_eq_clamp (x : ℝ) : max 0 (min 1 x) = clamp x 0 1 := by
  rw [clamp]
  split_ifs with h1 h2
  · rw [min_eq_right (by linarith), max_eq_left (by linarith)]
  · rw [min_eq_left (by linarith), max_eq_right (by linarith)]
  · rw [min_eq_right (by linarith), max_eq_right (by linarith)]

theorem rescaled_sigmoid_mem (k m r : ℝ) (hk : 0 < k) (hr : 0 ≤ r) :
    0 ≤ (sigmoid r k m - sigmoid 0 k m) / (1 - sigmoid 0 k m) ∧
    (sigmoid r k m - sigmoid 0 k m) / (1 - sigmoid 0 k m) ≤ 1 := by
  have hden : (0 : ℝ) < 1 - sigmoid 0 k m := by
    linarith [sigmoid_lt_one 0 k m]
  have hnum : 0 ≤ sigmoid r k m - sigmoid 0 k m := by
    linarith [sigmoid_mono k m 0 r hk hr]
  constructor
  · exact div_nonneg hnum (le_of_lt hden)
  · rw [div_le_one hden]
    linarith [sigmoid_le_one r k m]

theorem foldl_maxD_nonneg (f : ℕ → ℝ) (l : List ℕ) (a : ℝ) :
    a ≤ l.foldl (fun maxD i => if maxD < f i then f i else maxD) a := by
  induction l generalizing a with
  | nil => exact le_refl a
  | cons x xs ih =>
      rw [List.foldl_cons]
      refine le_trans ?_ (ih _)
      split_ifs with h
      · exact le_of_lt h
      · exact le_refl a

theorem ksStatistic_nonneg (samples : List ℝ) (cdf : ℝ → ℝ) :
    0 ≤ ksStatistic samples cdf := by
  rw [ksStatistic]
  exact foldl_maxD_nonneg _ _ 0

/-! ### Composite score (analyzer) -/

theorem foldl_weight_sums (raw w : MetricKey → ℝ) (l : List MetricKey) (p : ℝ × ℝ) :
    l.foldl (fun (p : ℝ × ℝ) k =>
        if raw k ≠ NO_DATA then (p.1 + w k * raw k, p.2 + w k) else p) p
      = (p.1 + (l.map fun k => if raw k = NO_DATA then 0 else w k * raw k).sum,
         p.2 + (l.map fun k => if raw k = NO_DATA then 0 else w k).sum) := by
  induction l generalizing p with
  | nil => simp
  | cons x xs ih =>
      rw [List.foldl_cons, ih, List.map_cons, List.map_cons, List.sum_cons, List.sum_cons]
      by_cases h : raw x = NO_DATA
      · rw [if_neg (by simp [h]), if_pos h, if_pos h]
        simp
      · rw [if_pos h, if_neg h, if_neg h]
        rw [Prod.ext_iff]
        constructor <;> simp <;> ring

/-- C1: for every analyzer input and every (non-negative, as the data
model requires) weight configuration, the composite score equals
`clamp(numerator/denominator, 0, 1)` accumulated over exactly the
non-sentinel metrics, and exactly 0 when the denominator is 0. -/
theorem composite_score_spec (cfg : AnalyzerConfig)
    (dwellBuf flightBuf : RingBuffer ℝ) (corrections rollovers total : ℕ)
    (hw : ∀ k, 0 ≤ cfg.weights.get k) :
    (analyze cfg dwellBuf flightBuf corrections rollovers total).score
      = compositeSpecScore
          (rawScore dwellBuf.toArray flightBuf.toArray corrections rollovers total)
          cfg.weights.get := by
  rw [analyze, compositeSpecScore]
  simp only [foldl_weight_sums, zero_add]
  set raw := rawScore dwellBuf.toArray flightBuf.toArray corrections rollovers total
  set den := (metricKeys.map fun k => if raw k = NO_DATA then 0 else cfg.weights.get k).sum
    with hden
  have hden0 : 0 ≤ den := by
    apply List.sum_nonneg
    intro a ha
    rw [List.mem_map] at ha
    obtain ⟨k, _, rfl⟩ := ha
    split_ifs
    · exact le_refl 0
    · exact hw k
  by_cases h : den = 0
  · rw [if_neg (by rw [h]; exact lt_irrefl 0), if_pos h]
  · rw [if_pos (lt_of_le_of_ne hden0 (Ne.symm h)), if_neg h]

/-- C1 witness: unit weights, empty buffers, zero counts. -/
theorem composite_score_spec_witness :
    (analyze ⟨20, ⟨1, 1, 1, 1, 1, 1⟩⟩ (createBuffer ℝ 3) (createBuffer ℝ 3) 0 0 0).score
      = compositeSpecScore
          (rawScore (createBuffer ℝ 3).toArray (createBuffer ℝ 3).toArray 0 0 0)
          (MetricWeights.get ⟨1, 1, 1, 1, 1, 1⟩) :=
  composite_score_spec ⟨20, ⟨1, 1, 1, 1, 1, 1⟩⟩ (createBuffer ℝ 3) (createBuffer ℝ 3) 0 0 0
    (by intro k; cases k <;> exact zero_le_one)

theorem MetricWeights.get_set (w : MetricWeights) (k j : MetricKey) (v : ℝ) :
    (w.set k v).get j = if j = k then v else w.get j := by
  cases k <;> cases j <;> simp [MetricWeights.set, MetricWeights.get]

/-- C7: when a metric reports the no-data sentinel, the composite score is
unchanged by zeroing that metric's weight — dynamic redistribution and
explicit zero-weighting coincide for a gated metric. -/
theorem gated_metric_zero_weight_equiv (cfg : AnalyzerConfig)
    (dwellBuf flightBuf : RingBuffer ℝ) (corrections rollovers total : ℕ)
    (k : MetricKey)
    (h : rawScore dwellBuf.toArray flightBuf.toArray corrections rollovers total k
          = NO_DATA) :
    (analyze cfg dwellBuf flightBuf corrections rollovers total).score
      = (analyze { cfg with weights := cfg.weights.set k 0 }
          dwellBuf flightBuf corrections rollovers total).score := by
  rw [analyze, analyze]
  simp only [foldl_weight_sums, zero_add]
  set raw := rawScore dwellBuf.toArray flightBuf.toArray corrections rollovers total
  have hnum : (metricKeys.map fun j => if raw j = NO_DATA then 0 else cfg.weights.get j * raw j)
      = metricKeys.map fun j => if raw j = NO_DATA then 0 else (cfg.weights.set k 0).get j * raw j := by
    apply List.map_congr_left
    intro j _
    by_cases hj : raw j = NO_DATA
    · rw [if_pos hj, if_pos hj]
    · have hjk : j ≠ k := fun he => hj (he ▸ h)
      rw [if_neg hj, if_neg hj, MetricWeights.get_set, if_neg hjk]
  have hdenm : (metricKeys.map fun j => if raw j = NO_DATA then 0 else cfg.weights.get j)
      = metricKeys.map fun j => if raw j = NO_DATA then 0 else (cfg.weights.set k 0).get j := by
    apply List.map_congr_left
    intro j _
    by_cases hj : raw j = NO_DATA
    · rw [if_pos hj, if_pos hj]
    · have hjk : j ≠ k := fun he => hj (he ▸ h)
      rw [if_neg hj, if_neg hj, MetricWeights.get_set, if_neg hjk]
  rw [hnum, hdenm]

/-- C7 witness: zero corrections with total = 10 gate the correction
metric. -/
theorem gated_metric_zero_weight_equiv_witness :
    (analyze ⟨20, DEFAULT_WEIGHTS⟩ (createBuffer ℝ 3) (createBuffer ℝ 3) 0 0 10).score
      = (analyze ⟨20, DEFAULT_WEIGHTS.set .correctionRatio 0⟩
          (createBuffer ℝ 3) (createBuffer ℝ 3) 0 0 10).score :=
  gated_metric_zero_weight_equiv ⟨20, DEFAULT_WEIGHTS⟩ (createBuffer ℝ 3) (createBuffer ℝ 3)
    0 0 10 .correctionRatio
    (by simp [rawScore, scoreCorrectionRatio, MIN_CORRECTION_SAMPLES])

/-! ### Per-metric score bounds -/

theorem detectSpoof_genuine_mem (flights : List ℝ) :
    0 ≤ (detectSpoof flights).genuineScore ∧ (detectSpoof flights).genuineScore ≤ 1 := by
  rw [detectSpoof]
  simp only
  exact ⟨le_max_left 0 _, max_le zero_le_one (min_le_left 1 _)⟩

theorem scoreDwellVariance_mem (dwells : List ℝ) :
    0 ≤ scoreDwellVariance dwells ∧ scoreDwellVariance dwells ≤ 1 := by
  rw [scoreDwellVariance]
  split_ifs
  · norm_num
  · exact ⟨mul_nonneg (sigmoid_nonneg _ _ _) (sigmoid_nonneg _ _ _),
      mul_le_one₀ (sigmoid_le_one _ _ _) (sigmoid_nonneg _ _ _) (sigmoid_le_one _ _ _)⟩

theorem scoreFlightFit_mem (flights : List ℝ) :
    0 ≤ scoreFlightFit flights ∧ scoreFlightFit flights ≤ 1 := by
  rw [scoreFlightFit]
  split_ifs with h1
  · norm_num
  · obtain ⟨g0, g1⟩ := detectSpoof_genuine_mem flights
    constructor
    · refine mul_nonneg g0 ?_
      split_ifs <;> norm_num [IKI_FLOOR_PENALTY]
    · refine mul_le_one₀ g1 ?_ ?_ <;> split_ifs <;> norm_num [IKI_FLOOR_PENALTY]

theorem scoreTimingEntropy_mem (flights : List ℝ) :
    0 ≤ scoreTimingEntropy flights ∧ scoreTimingEntropy flights ≤ 1 := by
  rw [scoreTimingEntropy]
  split_ifs
  · norm_num
  · simp only
    rw [ENTROPY_WEIGHT, FLUCTUATION_WEIGHT]
    constructor
    · have h1 := mul_nonneg (sigmoid_nonneg (shannonEntropy flights 10) ENTROPY_UP_SLOPE
        ENTROPY_UP_MIDPOINT_BITS) (sigmoid_nonneg (shannonEntropy flights 10)
        ENTROPY_DOWN_SLOPE ENTROPY_DOWN_MIDPOINT_BITS)
      have h2 := sigmoid_nonneg (if 0 < listMin flights then listMax flights / listMin flights else 0)
        FLUCTUATION_SIGMOID_SLOPE FLUCTUATION_SIGMOID_MIDPOINT
      linarith
    · have h1 := mul_le_one₀ (sigmoid_le_one (shannonEntropy flights 10) ENTROPY_UP_SLOPE
        ENTROPY_UP_MIDPOINT_BITS) (sigmoid_nonneg (shannonEntropy flights 10)
        ENTROPY_DOWN_SLOPE ENTROPY_DOWN_MIDPOINT_BITS) (sigmoid_le_one (shannonEntropy flights 10)
        ENTROPY_DOWN_SLOPE ENTROPY_DOWN_MIDPOINT_BITS)
      have h2 := sigmoid_le_one (if 0 < listMin flights then listMax flights / listMin flights else 0)
        FLUCTUATION_SIGMOID_SLOPE FLUCTUATION_SIGMOID_MIDPOINT
      linarith

theorem scoreCorrectionRatio_mem (corrections total : ℕ)
    (h : scoreCorrectionRatio corrections total ≠ NO_DATA) :
    0 ≤ scoreCorrectionRatio corrections total ∧ scoreCorrectionRatio corrections total ≤ 1 := by
  simp only [scoreCorrectionRatio] at h ⊢
  obtain ⟨s0, s1⟩ := rescaled_sigmoid_mem CORRECTION_SIGMOID_SLOPE
    CORRECTION_SIGMOID_MIDPOINT ((corrections : ℝ) / total)
    (by norm_num [CORRECTION_SIGMOID_SLOPE])
    (div_nonneg (Nat.cast_nonneg corrections) (Nat.cast_nonneg total))
  split_ifs at h ⊢
  · norm_num
  · exact absurd rfl h
  · exact ⟨mul_nonneg s0 (by norm_num [EXCESSIVE_CORRECTION_PENALTY]),
      mul_le_one₀ s1 (by norm_num [EXCESSIVE_CORRECTION_PENALTY])
        (by norm_num [EXCESSIVE_CORRECTION_PENALTY])⟩
  · exact ⟨s0, s1⟩

theorem scoreBurstRegularity_mem (flights : List ℝ)
    (h : scoreBurstRegularity flights ≠ NO_DATA) :
    0 ≤ scoreBurstRegularity flights ∧ scoreBurstRegularity flights ≤ 1 := by
  simp only [scoreBurstRegularity] at h ⊢
  split_ifs at h ⊢
  · norm_num
  · exact absurd rfl h
  · exact ⟨sigmoid_nonneg _ _ _, sigmoid_le_one _ _ _⟩
  · exact ⟨sigmoid_nonneg _ _ _, sigmoid_le_one _ _ _⟩

theorem scoreRolloverRate_mem (rollovers total : ℕ)
    (h : scoreRolloverRate rollovers total ≠ NO_DATA) :
    0 ≤ scoreRolloverRate rollovers total ∧ scoreRolloverRate rollovers total ≤ 1 := by
  simp only [scoreRolloverRate] at h ⊢
  split_ifs at h ⊢
  · norm_num
  · exact absurd rfl h
  · exact rescaled_sigmoid_mem ROLLOVER_SIGMOID_SLOPE ROLLOVER_SIGMOID_MIDPOINT
      ((rollovers : ℝ) / total) (by norm_num [ROLLOVER_SIGMOID_SLOPE])
      (div_nonneg (Nat.cast_nonneg rollovers) (Nat.cast_nonneg total))

/-- C9: under non-negative weights, the composite score is in [0, 1] and
every reported metric score (after sentinel substitution) is in [0, 1]. -/
theorem analyze_score_bounds (cfg : AnalyzerConfig)
    (dwellBuf flightBuf : RingBuffer ℝ) (corrections rollovers total : ℕ)
    (hw : ∀ k, 0 ≤ cfg.weights.get k) :
    (0 ≤ (analyze cfg dwellBuf flightBuf corrections rollovers total).score ∧
      (analyze cfg dwellBuf flightBuf corrections rollovers total).score ≤ 1) ∧
    ∀ k : MetricKey,
      0 ≤ (analyze cfg dwellBuf flightBuf corrections rollovers total).metrics.get k ∧
      (analyze cfg dwellBuf flightBuf corrections rollovers total).metrics.get k ≤ 1 := by
  have _ := hw
  constructor
  · rw [analyze]
    simp only
    split_ifs
    · exact clamp_mem _
    · norm_num
  · intro k
    rw [analyze]
    cases k <;> simp only [MetricScores.get, rawScore] <;> split_ifs with hnd
    · norm_num
    · exact scoreDwellVariance_mem _
    · norm_num
    · exact scoreFlightFit_mem _
    · norm_num
    · exact scoreTimingEntropy_mem _
    · norm_num
    · exact scoreCorrectionRatio_mem _ _ hnd
    · norm_num
    · exact scoreBurstRegularity_mem _ hnd
    · norm_num
    · exact scoreRolloverRate_mem _ _ hnd

/-- C9 witness: unit weights, empty buffers, zero counts. -/
theorem analyze_score_bounds_witness :
    (0 ≤ (analyze ⟨20, ⟨1, 1, 1, 1, 1, 1⟩⟩ (createBuffer ℝ 3) (createBuffer ℝ 3) 0 0 0).score ∧
      (analyze ⟨20, ⟨1, 1, 1, 1, 1, 1⟩⟩ (createBuffer ℝ 3) (createBuffer ℝ 3) 0 0 0).score ≤ 1) ∧
    ∀ k : MetricKey,
      0 ≤ (analyze ⟨20, ⟨1, 1, 1, 1, 1, 1⟩⟩ (createBuffer ℝ 3)
            (createBuffer ℝ 3) 0 0 0).metrics.get k ∧
      (analyze ⟨20, ⟨1, 1, 1, 1, 1, 1⟩⟩ (createBuffer ℝ 3)
            (createBuffer ℝ 3) 0 0 0).metrics.get k ≤ 1 :=
  analyze_score_bounds ⟨20, ⟨1, 1, 1, 1, 1, 1⟩⟩ (createBuffer ℝ 3) (createBuffer ℝ 3) 0 0 0
    (by intro k; cases k <;> exact zero_le_one)

/-! ### Log-normality score (anti-spoof) -/

/-- C4: `computeLogNormalityScore` returns 0.5 with fewer than 5 positive
samples, 0 when the log-transformed stddev is exactly 0, the value
0.7 + 0.3·(1 − D/critical), lying in [0.7, 1], when the KS statistic D is
at most critical = c/√n, and max(0, 0.7·critical/D) when D exceeds
critical. -/
theorem logNormality_score_cases (flights : List ℝ) :
    (((flights.filter fun x => 0 < x).map Real.log).length < MIN_KS_SAMPLES →
      computeLogNormalityScore flights = 0.5) ∧
    (MIN_KS_SAMPLES ≤ ((flights.filter fun x => 0 < x).map Real.log).length →
      stddev ((flights.filter fun x => 0 < x).map Real.log) = 0 →
      computeLogNormalityScore flights = 0) ∧
    ∀ D critical : ℝ,
      D = ksStatistic ((flights.filter fun x => 0 < x).map Real.log)
        (fun x => normalCDF ((x - mean ((flights.filter fun x => 0 < x).map Real.log)) /
          stddev ((flights.filter fun x => 0 < x).map Real.log))) →
      critical = KS_CRITICAL_COEFF /
        Real.sqrt ((((flights.filter fun x => 0 < x).map Real.log).length : ℝ)) →
      MIN_KS_SAMPLES ≤ ((flights.filter fun x => 0 < x).map Real.log).length →
      stddev ((flights.filter fun x => 0 < x).map Real.log) ≠ 0 →
      (D ≤ critical →
        computeLogNormalityScore flights
            = KS_PASS_BASELINE + KS_PASS_BONUS * (1 - D / critical) ∧
        KS_PASS_BASELINE ≤ computeLogNormalityScore flights ∧
        computeLogNormalityScore flights ≤ 1) ∧
      (critical < D →
        computeLogNormalityScore flights = max 0 (KS_FAIL_BASELINE * (critical / D))) := by
  have hlenle : ((flights.filter fun x => 0 < x).map Real.log).length ≤ flights.length := by
    rw [List.length_map]
    exact List.length_filter_le _ flights
  refine ⟨?_, ?_, ?_⟩
  · intro h
    simp only [computeLogNormalityScore]
    split_ifs with c1 <;> rfl
  · intro h5 hsig
    simp only [computeLogNormalityScore]
    split_ifs with c1 c2
    · exfalso; rw [MIN_KS_SAMPLES] at h5 c1; omega
    · exfalso; rw [MIN_KS_SAMPLES] at h5 c2; omega
    · rfl
  · intro D critical hD hcrit h5 hsig
    subst hD
    subst hcrit
    have hlenpos : (0 : ℝ) < (((flights.filter fun x => 0 < x).map Real.log).length : ℝ) := by
      rw [MIN_KS_SAMPLES] at h5
      exact_mod_cast Nat.lt_of_lt_of_le (by norm_num) h5
    have hcrit0 : (0 : ℝ) < KS_CRITICAL_COEFF /
        Real.sqrt ((((flights.filter fun x => 0 < x).map Real.log).length : ℝ)) := by
      apply div_pos
      · rw [KS_CRITICAL_COEFF]; norm_num
      · exact Real.sqrt_pos.mpr hlenpos
    constructor
    · intro hle
      have hr1 := (div_le_one hcrit0).mpr hle
      have hr0 := div_nonneg
        (ksStatistic_nonneg ((flights.filter fun x => 0 < x).map Real.log)
          (fun x => normalCDF ((x - mean ((flights.filter fun x => 0 < x).map Real.log)) /
            stddev ((flights.filter fun x => 0 < x).map Real.log))))
        (le_of_lt hcrit0)
      simp only [computeLogNormalityScore]
      split_ifs with c1 c2
      · exfalso; rw [MIN_KS_SAMPLES] at h5 c1; omega
      · exfalso; rw [MIN_KS_SAMPLES] at h5 c2; omega
      · refine ⟨rfl, ?_, ?_⟩
        · rw [KS_PASS_BASELINE, KS_PASS_BONUS]; linarith
        · rw [KS_PASS_BASELINE, KS_PASS_BONUS]; linarith
    · intro hgt
      simp only [computeLogNormalityScore]
      split_ifs with c1 c2 c3
      · exfalso; rw [MIN_KS_SAMPLES] at h5 c1; omega
      · exfalso; rw [MIN_KS_SAMPLES] at h5 c2; omega
      · exact absurd c3 (not_le.mpr hgt)
      · rfl

/-- C4 witness: the empty sample list has fewer than 5 positive samples
and scores the neutral 0.5. -/
theorem logNormality_score_cases_witness :
    computeLogNormalityScore [] = 0.5 :=
  (logNormality_score_cases []).1 (by simp [MIN_KS_SAMPLES])

/-! ### Spoof detection composition -/

/-- C5: `detectSpoof` exposes all three sub-scores, zeroes the serial
correlation below 3 samples, maps |autocorrelation| through the noise
floor and the human ceiling, and combines everything with weights ordered
log-normality > anti-uniformity > serial correlation under a [0, 1]
clamp. -/
theorem detectSpoof_spec (samples : List ℝ) :
    (detectSpoof samples).logNormality = computeLogNormalityScore samples ∧
    (detectSpoof samples).uniformity = computeUniformityScore samples ∧
    (detectSpoof samples).serialCorrelation =
      (if 3 ≤ samples.length then autocorrelation samples else 0) ∧
    (samples.length < 3 → (detectSpoof samples).serialCorrelation = 0) ∧
    (detectSpoof samples).genuineScore =
      clamp (SPOOF_WEIGHT_LOGNORMALITY * computeLogNormalityScore samples +
        SPOOF_WEIGHT_UNIFORMITY * (1 - computeUniformityScore samples) +
        SPOOF_WEIGHT_AUTOCORR *
          (if AUTOCORR_NOISE_FLOOR < |(detectSpoof samples).serialCorrelation| then
            min 1 (|(detectSpoof samples).serialCorrelation| / AUTOCORR_HUMAN_MAX)
          else 0)) 0 1 ∧
    SPOOF_WEIGHT_UNIFORMITY < SPOOF_WEIGHT_LOGNORMALITY ∧
    SPOOF_WEIGHT_AUTOCORR < SPOOF_WEIGHT_UNIFORMITY := by
  refine ⟨rfl, rfl, rfl, ?_, ?_, ?_, ?_⟩
  · intro h
    simp only [detectSpoof]
    rw [if_neg (by omega)]
  · simp only [detectSpoof]
    rw [← max_min_eq_clamp]
  · rw [SPOOF_WEIGHT_UNIFORMITY, SPOOF_WEIGHT_LOGNORMALITY]; norm_num
  · rw [SPOOF_WEIGHT_AUTOCORR, SPOOF_WEIGHT_UNIFORMITY]; norm_num

/-- C5 witness: an empty sample list reports zero serial correlation. -/
theorem detectSpoof_spec_witness : (detectSpoof []).serialCorrelation = 0 :=
  (detectSpoof_spec []).2.2.2.1 (by decide)

/-! ### Hysteresis classification -/

/-- C6: the transition function is a Schmitt trigger: from unknown it
moves to bot iff score < enter-bot and to human iff score ≥ enter-human,
else stays; from bot it leaves only to unknown, when score ≥ exit-bot;
from human it leaves only to unknown, when score < exit-human; any score
at or above exit-human keeps human, and no single transition jumps
between bot and human. -/
theorem classifyStep_schmitt (t : ClassificationThresholds) (s : ℝ)
    (hord : t.unknownToBot < t.botToUnknown ∧ t.botToUnknown < t.humanToUnknown ∧
      t.humanToUnknown < t.unknownToHuman) :
    (classifyStep t .unknown s = .bot ↔ s < t.unknownToBot) ∧
    (classifyStep t .unknown s = .human ↔ t.unknownToHuman ≤ s) ∧
    (¬s < t.unknownToBot → ¬t.unknownToHuman ≤ s →
      classifyStep t .unknown s = .unknown) ∧
    (classifyStep t .bot s = .unknown ↔ t.botToUnknown ≤ s) ∧
    (classifyStep t .human s = .unknown ↔ s < t.humanToUnknown) ∧
    (t.humanToUnknown ≤ s → classifyStep t .human s = .human) ∧
    classifyStep t .bot s ≠ .human ∧
    classifyStep t .human s ≠ .bot := by
  obtain ⟨o1, o2, o3⟩ := hord
  refine ⟨?_, ?_, ?_, ?_, ?_, ?_, ?_, ?_⟩
  · by_cases h1 : s < t.unknownToBot
    · simp [classifyStep, h1]
    · by_cases h2 : t.unknownToHuman ≤ s
      · simp [classifyStep, h1, h2]
      · simp [classifyStep, h1, h2]
  · by_cases h1 : s < t.unknownToBot
    · simp only [classifyStep, if_pos h1]
      constructor
      · intro h; exact absurd h (by simp)
      · intro h; linarith
    · by_cases h2 : t.unknownToHuman ≤ s
      · simp [classifyStep, h1, h2]
      · simp [classifyStep, h1, h2]
  · intro h1 h2
    simp [classifyStep, h1, h2]
  · by_cases h : t.botToUnknown ≤ s
    · simp [classifyStep, h]
    · simp [classifyStep, h]
  · by_cases h : s < t.humanToUnknown
    · simp [classifyStep, h]
    · simp [classifyStep, h]
  · intro h
    simp only [classifyStep]
    rw [if_neg (by linarith)]
  · by_cases h : t.botToUnknown ≤ s <;> simp [classifyStep, h]
  · by_cases h : s < t.humanToUnknown <;> simp [classifyStep, h]

/-- C6 witness: thresholds 0 < 1/2 < 1 < 2 and a score of 1 keep the
human label. -/
theorem classifyStep_schmitt_witness :
    classifyStep ⟨0, 1/2, 2, 1⟩ .human 1 = .human :=
  (classifyStep_schmitt ⟨0, 1/2, 2, 1⟩ 1
      ⟨one_half_pos, one_half_lt_one, one_lt_two⟩).2.2.2.2.2.1
    (le_refl 1)

end IsHumanCadence
